import Mathlib

/-!
Verification development for the sf-scrapbook-helper repository.

The repository is a Rust application that crawls a game leaderboard with a
pool of worker identities, maintains a player database with an inverted
equipment index, and computes attack-target rankings.  This file gives a
shallow embedding of the data model and of the operations referenced by the
specification, and proves (or refutes) the specification's claims about them.

Conventions of the embedding:
* Rust `HashMap`/`IntMap`/`BTreeMap` values are modelled as association
  lists with unique keys (`List (κ × ν)`).
* Rust `HashSet` values are modelled as duplicate-free lists with
  insert-if-absent and filter-based removal.
* Machine integers (`u16`/`u32`/`usize`) are modelled as `Nat`; none of the
  embedded operations can overflow in any reachable scenario considered.
* Calendar dates and timestamps are modelled as opaque `Nat` values.
* The zlib compression layer of the backup codec is lossless and is
  modelled as the identity on the serialized document.
-/

namespace SBH

/-- Model of `sf_api::gamestate::unlockables::EquipmentIdent`: an item
identifier with a slot discriminant and a numeric model id (the field the
code inspects for the NPC-only cutoff `model_id >= 100`). -/
structure EquipmentIdent where
  slot : Nat
  model_id : Nat
deriving DecidableEq, Repr

/-- The current revision's per-player record, with the fields constructed in
`src/src/crawler.rs` (`CharacterInfo { equipment, name, uid, level,
fetch_date, stats, class }`).  The `class` tag is modelled as a numeric
discriminant, dates as `Nat`. -/
structure CharacterInfo where
  equipment : List EquipmentIdent
  name : String
  uid : Nat
  level : Nat
  fetch_date : Option Nat
  stats : Option Nat
  cls : Option Nat
deriving DecidableEq, Repr

/-- Crawling order policy, from `src/src/crawler.rs` `CrawlingOrder`. -/
inductive CrawlingOrder where
  | random
  | topDown
  | bottomUp
deriving DecidableEq, Repr

/-! ## Backup codec (`src/src/backup.rs`) -/

/-- The persisted snapshot document, from `src/src/backup.rs` `ZHofBackup`. -/
structure ZHofBackup where
  todo_pages : List Nat
  invalid_pages : List Nat
  todo_accounts : List String
  invalid_accounts : List String
  order : CrawlingOrder
  export_time : Option Nat
  characters : List CharacterInfo
deriving DecidableEq, Repr

/-- A JSON document, the target of the (modelled) serde serialization. -/
inductive Json where
  | null
  | num (n : Nat)
  | str (s : String)
  | arr (xs : List Json)
  | obj (fields : List (String × Json))

def encNat (n : Nat) : Json := .num n

def decNat : Json → Option Nat
  | .num n => some n
  | _ => none

def encStr (s : String) : Json := .str s

def decStr : Json → Option String
  | .str s => some s
  | _ => none

def encOptNat : Option Nat → Json
  | none => .null
  | some n => .num n

def decOptNat : Json → Option (Option Nat)
  | .null => some none
  | .num n => some (some n)
  | _ => none

def encOrder : CrawlingOrder → Json
  | .random => .str "Random"
  | .topDown => .str "TopDown"
  | .bottomUp => .str "BottomUp"

def decOrder : Json → Option CrawlingOrder
  | .str "Random" => some .random
  | .str "TopDown" => some .topDown
  | .str "BottomUp" => some .bottomUp
  | _ => none

def encIdent (i : EquipmentIdent) : Json :=
  .obj [("slot", encNat i.slot), ("model_id", encNat i.model_id)]

def decIdent : Json → Option EquipmentIdent
  | .obj [("slot", s), ("model_id", m)] => do
    let s ← decNat s
    let m ← decNat m
    pure ⟨s, m⟩
  | _ => none

def encList (enc : α → Json) (l : List α) : Json := .arr (l.map enc)

def decListAux (dec : Json → Option α) : List Json → Option (List α)
  | [] => some []
  | j :: js => do
    let x ← dec j
    let xs ← decListAux dec js
    pure (x :: xs)

def decList (dec : Json → Option α) : Json → Option (List α)
  | .arr xs => decListAux dec xs
  | _ => none

def encChar (c : CharacterInfo) : Json :=
  .obj [("equipment", encList encIdent c.equipment),
        ("name", encStr c.name),
        ("uid", encNat c.uid),
        ("level", encNat c.level),
        ("fetch_date", encOptNat c.fetch_date),
        ("stats", encOptNat c.stats),
        ("class", encOptNat c.cls)]

def decChar : Json → Option CharacterInfo
  | .obj [("equipment", e), ("name", n), ("uid", u), ("level", l),
          ("fetch_date", f), ("stats", s), ("class", k)] => do
    let e ← decList decIdent e
    let n ← decStr n
    let u ← decNat u
    let l ← decNat l
    let f ← decOptNat f
    let s ← decOptNat s
    let k ← decOptNat k
    pure ⟨e, n, u, l, f, s, k⟩
  | _ => none

def encBackup (b : ZHofBackup) : Json :=
  .obj [("todo_pages", encList encNat b.todo_pages),
        ("invalid_pages", encList encNat b.invalid_pages),
        ("todo_accounts", encList encStr b.todo_accounts),
        ("invalid_accounts", encList encStr b.invalid_accounts),
        ("order", encOrder b.order),
        ("export_time", encOptNat b.export_time),
        ("characters", encList encChar b.characters)]

def decBackup : Json → Option ZHofBackup
  | .obj [("todo_pages", tp), ("invalid_pages", ip), ("todo_accounts", ta),
          ("invalid_accounts", ia), ("order", o), ("export_time", t),
          ("characters", cs)] => do
    let tp ← decList decNat tp
    let ip ← decList decNat ip
    let ta ← decList decStr ta
    let ia ← decList decStr ia
    let o ← decOrder o
    let t ← decOptNat t
    let cs ← decList decChar cs
    pure ⟨tp, ip, ta, ia, o, t, cs⟩
  | _ => none

/-- The volatile-field stripping performed at the start of
`ZHofBackup::write` (`src/src/backup.rs` lines 159-162). -/
def stripChar (c : CharacterInfo) : CharacterInfo :=
  { c with fetch_date := none, stats := none }

/-- Strip the volatile fields of every character of a snapshot. -/
def stripBackup (b : ZHofBackup) : ZHofBackup :=
  { b with characters := b.characters.map stripChar }

/-- `ZHofBackup::write`: the method first mutates `self` (stripping
`fetch_date`/`stats` from every character), then serializes, then creates
the file.  The first component is the state of `self` after the call, the
second the serialized document when file creation succeeds (`fileOk`).
File creation happens after stripping, so `self` is stripped even when the
write fails. -/
def zhofWrite (fileOk : Bool) (b : ZHofBackup) : ZHofBackup × Option Json :=
  (stripBackup b, if fileOk then some (encBackup (stripBackup b)) else none)

/-- `ZHofBackup::read`: decompress (modelled as identity) and deserialize. -/
def zhofRead (j : Json) : Option ZHofBackup := decBackup j

/-! ## Association-map and set helpers

Rust `HashMap`/`IntMap`/`BTreeMap` values are modelled as association lists
with unique keys, `HashSet` values as duplicate-free lists. -/

/-- Map lookup. -/
def mapLookup [DecidableEq κ] : List (κ × ν) → κ → Option ν
  | [], _ => none
  | (k1, v1) :: rest, k => if k1 = k then some v1 else mapLookup rest k

/-- Map insert: replace the binding of `k` in place, or append a new one. -/
def mapInsert [DecidableEq κ] : List (κ × ν) → κ → ν → List (κ × ν)
  | [], k, v => [(k, v)]
  | (k1, v1) :: rest, k, v =>
    if k1 = k then (k, v) :: rest else (k1, v1) :: mapInsert rest k v

/-- Map removal of a key. -/
def mapErase [DecidableEq κ] (m : List (κ × ν)) (k : κ) : List (κ × ν) :=
  m.filter fun kv => decide (kv.1 ≠ k)

/-- `HashSet::insert`: append the element when it is not yet present. -/
def hsAdd [DecidableEq α] (l : List α) (a : α) : List α :=
  if a ∈ l then l else l ++ [a]

/-- Remove from `l` every element of `rem` (`Vec::retain` against a set). -/
def removeAll [DecidableEq α] (l rem : List α) : List α :=
  l.filter fun x => decide (x ∉ rem)

/-! ## PlayerDatabase / EquipmentIndex, superseded revision
(`src/src/main.rs` lines 901-915, `src/src/observer.rs` lines 476-490) -/

/-- The superseded revision's per-player record (`src/src/main.rs`
`CharacterInfo`), without the later `fetch_date`/`stats`/`class` fields. -/
structure CharacterInfoV1 where
  equipment : List EquipmentIdent
  name : String
  uid : Nat
  level : Nat
deriving DecidableEq, Repr

/-- Owner set of an item in an equipment index. -/
def ownersOf [DecidableEq ι] (e : List (ι × List Nat)) (i : ι) : List Nat :=
  (mapLookup e i).getD []

/-- Insert `u` into the owner set of item `i`
(`equipment.entry(eq).and_modify(insert).or_insert(SET)`). -/
def indexAdd [DecidableEq ι] (e : List (ι × List Nat)) (i : ι) (u : Nat) :
    List (ι × List Nat) :=
  mapInsert e i (hsAdd (ownersOf e i) u)

/-- `handle_new_char_info` as written in `src/src/main.rs` lines 901-915 and
`src/src/observer.rs` lines 476-490: insert the incoming record's items into
the index and replace the stored record.  The old record's items are NOT
removed first. -/
def handle_new_char_info_v1 (ch : CharacterInfoV1)
    (e : List (EquipmentIdent × List Nat)) (pi : List (Nat × CharacterInfoV1)) :
    List (EquipmentIdent × List Nat) × List (Nat × CharacterInfoV1) :=
  (ch.equipment.foldl (fun acc i => indexAdd acc i ch.uid) e,
   mapInsert pi ch.uid ch)

/-- One upsert step on the `(index, database)` pair. -/
def upsertV1 (acc : List (EquipmentIdent × List Nat) × List (Nat × CharacterInfoV1))
    (ch : CharacterInfoV1) :
    List (EquipmentIdent × List Nat) × List (Nat × CharacterInfoV1) :=
  handle_new_char_info_v1 ch acc.1 acc.2

/-- A whole sequence of upserts starting from the empty database. -/
def applyUpserts (chars : List CharacterInfoV1) :
    List (EquipmentIdent × List Nat) × List (Nat × CharacterInfoV1) :=
  chars.foldl upsertV1 ([], [])

/-! ## WorkQueue (`src/src/crawler.rs` `WorkerQue`) and the message handlers
(`src/src/message.rs`) -/

/-- `CrawlAction` from `src/src/crawler.rs`; page and character actions carry
the `QueID` epoch they were issued under (modelled as `Nat`). -/
inductive CrawlAction where
  | wait
  | initTodo
  | page (idx : Nat) (qid : Nat)
  | character (name : String) (qid : Nat)
deriving DecidableEq, Repr

/-- The crawler failure taxonomy (`CrawlerError`, declared in the crate root;
the three kinds are fixed by `src/src/message.rs` matching on
`NotFound`/`RateLimit`/`Generic`).  The payload of `Generic` is irrelevant to
control flow and omitted. -/
inductive CrawlerError where
  | notFound
  | rateLimit
  | generic
deriving DecidableEq, Repr

/-- `WorkerQue` from `src/src/crawler.rs` lines 318-332.
`in_flight_accounts` is a `HashSet`, modelled as a duplicate-free list;
`lvl_skipped_accounts` is a `BTreeMap<u32, Vec<String>>`. -/
structure WorkerQue where
  que_id : Nat
  todo_pages : List Nat
  todo_accounts : List String
  invalid_pages : List Nat
  invalid_accounts : List String
  in_flight_pages : List Nat
  in_flight_accounts : List String
  order : CrawlingOrder
  lvl_skipped_accounts : List (Nat × List String)
  min_level : Nat
  max_level : Nat
  self_init : Bool
deriving DecidableEq, Repr

/-- Push a value onto a by-key bucket
(`BTreeMap::entry` vacant/occupied as in `src/src/crawler.rs` lines 89-96). -/
def bucketPush [DecidableEq κ] (m : List (κ × List ν)) (k : κ) (v : ν) :
    List (κ × List ν) :=
  mapInsert m k ((mapLookup m k).getD [] ++ [v])

/-- Absorb one account discovered on a page
(`src/src/crawler.rs` lines 86-100): park it by level when outside the
`[min_level, max_level]` range, otherwise push it to todo. -/
def absorbAccount (q : WorkerQue) (acc : Nat × String) : WorkerQue :=
  if q.max_level < acc.1 ∨ acc.1 < q.min_level then
    { q with lvl_skipped_accounts := bucketPush q.lvl_skipped_accounts acc.1 acc.2 }
  else
    { q with todo_accounts := q.todo_accounts ++ [acc.2] }

/-- Successful completion of a page fetch (`src/src/crawler.rs` lines 85-102):
absorb every discovered `(level, name)` account, then drop the page from
in-flight.  The source destructures the action as `Page(page, _)`: the
epoch (`_epoch`) is never consulted. -/
def completePage (q : WorkerQue) (page : Nat) (_epoch : Nat)
    (discovered : List (Nat × String)) : WorkerQue :=
  let q1 := discovered.foldl absorbAccount q
  { q1 with in_flight_pages := q1.in_flight_pages.filter fun x => decide (x ≠ page) }

/-- The "no such player" path of a character fetch
(`src/src/crawler.rs` lines 153-162): under a matching epoch, drop the name
from invalid and in-flight, then push it to invalid. -/
def charNotFound (q : WorkerQue) (name : String) (qid : Nat) : WorkerQue :=
  if q.que_id = qid then
    { q with
      invalid_accounts :=
        (q.invalid_accounts.filter fun x => decide (x ≠ name)) ++ [name],
      in_flight_accounts := q.in_flight_accounts.filter fun x => decide (x ≠ name) }
  else q

/-- `Char::is_ascii_digit` over a whole name (`src/src/crawler.rs` line 32). -/
def allDigits (s : String) : Bool := s.data.all Char.isDigit

/-- The per-server crawling state carried by `CrawlingStatus::Crawling`
(`src/src/server.rs` lines 24-37): the status-level epoch, the queue, the
player database, the equipment index, the recent-failure list, the
low-equipment-by-level bucket (`naked`, current revision) and whether a
crawler session is registered (`crawling_session.is_some()`). -/
structure CrawlState where
  que_id : Nat
  que : WorkerQue
  player_info : List (Nat × CharacterInfo)
  equipment : List (EquipmentIdent × List Nat)
  recent_failures : List CrawlAction
  naked : List (Nat × List Nat)
  hasSession : Bool
deriving DecidableEq, Repr

/-- Remove `u` from the owner set of `i`, deleting the entry when no owner
remains. -/
def indexRemove [DecidableEq ι] (e : List (ι × List Nat)) (i : ι) (u : Nat) :
    List (ι × List Nat) :=
  match mapLookup e i with
  | none => e
  | some owners =>
    let owners2 := owners.filter fun x => decide (x ≠ u)
    if owners2 = [] then mapErase e i else mapInsert e i owners2

/-- Modelled from the spec: the current revision's four-argument
`handle_new_char_info` (the PlayerDatabase upsert invoked from
`src/src/message.rs` line 313) is not present under `src/`; per §4.4 it
first removes each of the old record's items from the index (deleting empty
owner sets), inserts the new record's items, replaces the record, and
reindexes the player in the low-equipment-by-level bucket (equipment count
below 4 and level at least 100). -/
def handle_new_char_info (ch : CharacterInfo)
    (e : List (EquipmentIdent × List Nat)) (pi : List (Nat × CharacterInfo))
    (naked : List (Nat × List Nat)) :
    List (EquipmentIdent × List Nat) × List (Nat × CharacterInfo) ×
      List (Nat × List Nat) :=
  let e1 := match mapLookup pi ch.uid with
    | some old => old.equipment.foldl (fun acc i => indexRemove acc i ch.uid) e
    | none => e
  let e2 := ch.equipment.foldl (fun acc i => indexAdd acc i ch.uid) e1
  let pi2 := mapInsert pi ch.uid ch
  let naked1 :=
    (naked.map fun kv => (kv.1, kv.2.filter fun x => decide (x ≠ ch.uid))).filter
      fun kv => decide (kv.2 ≠ [])
  let naked2 :=
    if ch.equipment.length < 4 ∧ 100 ≤ ch.level then
      bucketPush naked1 ch.level ch.uid
    else naked1
  (e2, pi2, naked2)

/-- `Message::CharacterCrawled` (`src/src/message.rs` lines 264-333, UI
progress reporting omitted): the name is removed from the in-flight account
set BEFORE the epoch comparison; a stale epoch then returns; a current epoch
clears the failure list and upserts the record. -/
def handleCharacterCrawled (st : CrawlState) (qid : Nat) (ch : CharacterInfo) :
    CrawlState :=
  let que1 := { st.que with
    in_flight_accounts := st.que.in_flight_accounts.filter fun x => decide (x ≠ ch.name) }
  if st.que_id ≠ qid then { st with que := que1 }
  else
    let r := handle_new_char_info ch st.equipment st.player_info st.naked
    { st with
      que := que1
      recent_failures := []
      equipment := r.1
      player_info := r.2.1
      naked := r.2.2 }

/-- `Message::PageCrawled` (`src/src/message.rs` lines 253-255): the handler
body is empty. -/
def handlePageCrawled (st : CrawlState) : CrawlState := st

/-- The tail of `Message::CrawlerUnable` after the partition update
(`src/src/message.rs` lines 416-479): `NotFound` returns; otherwise the
action is pushed onto `recent_failures`, and the re-login task is spawned
exactly when the list length is 10 and a crawling session is registered. -/
def crawlerUnableEscalate (st : CrawlState) (action : CrawlAction)
    (err : CrawlerError) : CrawlState × Bool :=
  match err with
  | .notFound => (st, false)
  | _ =>
    let rf := st.recent_failures ++ [action]
    ({ st with recent_failures := rf }, (rf.length == 10) && st.hasSession)

/-- `Message::CrawlerUnable` (`src/src/message.rs` lines 368-480).  The
returned `Bool` records whether the supervised re-login task is spawned. -/
def handleCrawlerUnable (st : CrawlState) (action : CrawlAction)
    (err : CrawlerError) : CrawlState × Bool :=
  match action with
  | .wait => crawlerUnableEscalate st action err
  | .initTodo => crawlerUnableEscalate st action err
  | .page p qid =>
    if qid ≠ st.que_id then (st, false)
    else
      let q1 := { st.que with
        in_flight_pages := st.que.in_flight_pages.filter fun x => decide (x ≠ p) }
      if err = .rateLimit then
        ({ st with que := { q1 with todo_pages := q1.todo_pages ++ [p] } }, false)
      else
        crawlerUnableEscalate
          { st with que := { q1 with invalid_pages := q1.invalid_pages ++ [p] } }
          action err
  | .character a qid =>
    if qid ≠ st.que_id then (st, false)
    else
      let q1 := { st.que with
        in_flight_accounts := st.que.in_flight_accounts.filter fun x => decide (x ≠ a) }
      if err = .rateLimit then
        ({ st with que := { q1 with todo_accounts := q1.todo_accounts ++ [a] } }, false)
      else
        crawlerUnableEscalate
          { st with que := { q1 with invalid_accounts := q1.invalid_accounts ++ [a] } }
          action err

/-- The failed pages recorded in `recent_failures` whose epoch still matches
the queue (`src/src/message.rs` lines 1026-1044). -/
def rfOkPages (st : CrawlState) : List Nat :=
  st.recent_failures.filterMap fun a =>
    match a with
    | .page p qid => if qid = st.que.que_id then some p else none
    | _ => none

/-- The failed account names recorded in `recent_failures` whose epoch still
matches the queue. -/
def rfOkChars (st : CrawlState) : List String :=
  st.recent_failures.filterMap fun a =>
    match a with
    | .character n qid => if qid = st.que.que_id then some n else none
    | _ => none

/-- `Message::CrawlerRevived` (`src/src/message.rs` lines 1010-1050): drain
the failure list, clear the invalid markers of the still-current failed
units and push them back to todo. -/
def handleCrawlerRevived (st : CrawlState) : CrawlState :=
  let okP := rfOkPages st
  let okA := rfOkChars st
  { st with
    recent_failures := [],
    que := { st.que with
      invalid_pages := removeAll st.que.invalid_pages okP,
      invalid_accounts := removeAll st.que.invalid_accounts okA,
      todo_accounts := st.que.todo_accounts ++ okA,
      todo_pages := st.que.todo_pages ++ okP } }

/-- `Message::CrawlerSetMinMax` (`src/src/message.rs` lines 1636-1668):
clamp the bounds, then move every level-skip bucket whose level lies
OUTSIDE the new `[min_level, max_level]` range into `todo_accounts`
(the `IntSet` iteration order of the source is unspecified; buckets are
drained here in stored-map order, which only affects the order of the
appended names). -/
def crawlerSetMinMax (q : WorkerQue) (mn mx : Nat) : WorkerQue :=
  let minL := Nat.max mn 1
  let maxL := Nat.min (Nat.max mx mn) 9999
  let outside := q.lvl_skipped_accounts.filter fun kv =>
    decide (kv.1 < minL ∨ maxL < kv.1)
  { q with
    min_level := minL,
    max_level := maxL,
    lvl_skipped_accounts := q.lvl_skipped_accounts.filter fun kv =>
      decide (¬ (kv.1 < minL ∨ maxL < kv.1)),
    todo_accounts := q.todo_accounts ++ outside.foldl (fun acc kv => acc ++ kv.2) [] }

/-! ## TargetOptimizer (`src/src/message.rs` `Message::CopyBattleOrder`,
with the crate-root helpers `calc_per_player_count` / `find_best` modelled
from the spec where they are absent from `src/`) -/

/-- `AttackTarget` (spec §3, destructured in `src/src/message.rs` line 1419):
the missing-item count snapshot together with the player record. -/
structure AttackTarget where
  missing : Nat
  info : CharacterInfo
deriving DecidableEq, Repr

/-- Total stats of a record; a record whose stats were never fetched counts
as 0. -/
def statsVal (c : CharacterInfo) : Nat := c.stats.getD 0

/-- The lexicographic ranking key of a target: missing count descending,
then total stats ascending, then level ascending, then name, then id
(spec §4.5). -/
abbrev RankKey := (OrderDual Nat) ×ₗ Nat ×ₗ Nat ×ₗ String ×ₗ Nat

/-- Key extraction for the target ranking. -/
def keyOf (t : AttackTarget) : RankKey :=
  toLex (OrderDual.toDual t.missing,
    toLex (statsVal t.info,
      toLex (t.info.level, toLex (t.info.name, t.info.uid))))

/-- The ranking order on targets. -/
def rankLE (a b : AttackTarget) : Prop := keyOf a ≤ keyOf b

instance : DecidableRel rankLE :=
  fun a b => inferInstanceAs (Decidable (keyOf a ≤ keyOf b))

instance : IsTotal AttackTarget rankLE :=
  ⟨fun a b => le_total (keyOf a) (keyOf b)⟩

instance : IsTrans AttackTarget rankLE :=
  ⟨fun _ _ _ h h2 => le_trans h h2⟩

/-- Modelled from the spec: the current revision's `find_best` (called from
`src/src/message.rs` lines 1444-1445 with an `invalid` name set) is not
present under `src/`.  Per §4.5 it keeps players with a positive count and a
database record, drops players whose name is marked invalid, orders by
count descending then total stats ascending then level ascending then name
then id, and truncates to `limit`. -/
def find_best (counts : List (Nat × Nat))
    (player_info : List (Nat × CharacterInfo)) (limit : Nat)
    (invalid : List String) : List AttackTarget :=
  let cands := counts.filterMap fun uc =>
    if uc.2 = 0 then none
    else
      match mapLookup player_info uc.1 with
      | none => none
      | some info =>
        if info.name ∈ invalid then none else some ⟨uc.2, info⟩
  (List.insertionSort rankLE cands).take limit

/-- Increment a per-player counter. -/
def bump (m : List (Nat × Nat)) (u : Nat) : List (Nat × Nat) :=
  mapInsert m u ((mapLookup m u).getD 0 + 1)

/-- Modelled from the spec: `calc_per_player_count` (called from
`src/src/message.rs` lines 1408-1411) is not present under `src/`.  Per
§4.5: for every indexed item not in the owned set and below the NPC-only
model-id cutoff (100), increment a counter for each owner; then drop any
player without a record, above the level or attribute ceiling, or at or
beyond the loss-blacklist threshold. -/
def calc_per_player_count (player_info : List (Nat × CharacterInfo))
    (equipment : List (EquipmentIdent × List Nat))
    (scrapbook : List EquipmentIdent) (max_level max_attributes : Nat)
    (blacklist : List (Nat × Nat)) (threshold : Nat) : List (Nat × Nat) :=
  let counts := equipment.foldl
    (fun m entry =>
      if entry.1 ∈ scrapbook ∨ 100 ≤ entry.1.model_id then m
      else entry.2.foldl bump m)
    []
  counts.filter fun uc =>
    match mapLookup player_info uc.1 with
    | none => false
    | some info =>
      decide (info.level ≤ max_level) &&
        decide (statsVal info ≤ max_attributes) &&
        decide ((mapLookup blacklist uc.1).getD 0 < threshold)

/-- The counter decrement of the battle-order loop
(`src/src/message.rs` lines 1435-1439): `entry(player).or_insert(1)` then
`saturating_sub(1)`. -/
def ppcDec (m : List (Nat × Nat)) (u : Nat) : List (Nat × Nat) :=
  mapInsert m u ((mapLookup m u).getD 1 - 1)

/-- Absorb one item of the conquered target
(`src/src/message.rs` lines 1425-1440): skip items already in the simulated
scrapbook or absent from the index; otherwise decrement every owner. -/
def boAbsorbItem (equipment : List (EquipmentIdent × List Nat))
    (scrapbook : List EquipmentIdent) (m : List (Nat × Nat))
    (eq : EquipmentIdent) : List (Nat × Nat) :=
  if eq ∈ scrapbook then m
  else
    match mapLookup equipment eq with
    | none => m
    | some players => players.foldl ppcDec m

/-- The greedy battle-order loop of `Message::CopyBattleOrder`
(`src/src/message.rs` lines 1419-1447), as a fuel recursion.  Each recursion
step mirrors one iteration of the `while let` loop: stop when `best` is
`None`, when `loop_count > 300`, or when the target's missing count is 0;
otherwise decrement the owners of each newly simulated item, extend the
simulated scrapbook, emit the target and recompute the single best
remaining target.  The loop counter strictly increases, so any fuel of at
least 302 reproduces the source loop exactly. -/
def battleOrderGo (equipment : List (EquipmentIdent × List Nat))
    (player_info : List (Nat × CharacterInfo)) (invalid : List String) :
    Nat → List EquipmentIdent → List (Nat × Nat) → Option AttackTarget →
      Nat → List AttackTarget
  | 0, _, _, _, _ => []
  | _, _, _, none, _ => []
  | fuel + 1, scrapbook, counts, some t, loop_count =>
    if 300 < loop_count ∨ t.missing = 0 then []
    else
      let counts2 := t.info.equipment.foldl (boAbsorbItem equipment scrapbook) counts
      let scrapbook2 := t.info.equipment.foldl hsAdd scrapbook
      let best2 := (find_best counts2 player_info 1 invalid).head?
      t :: battleOrderGo equipment player_info invalid fuel scrapbook2 counts2
        best2 (loop_count + 1)

/-- The full `Message::CopyBattleOrder` computation: the initial candidate
is the head of the stored ranked list `si.best`, the loop counter starts at
0. -/
def copyBattleOrder (equipment : List (EquipmentIdent × List Nat))
    (player_info : List (Nat × CharacterInfo)) (invalid : List String)
    (scrapbook : List EquipmentIdent) (counts : List (Nat × Nat))
    (si_best : List AttackTarget) : List AttackTarget :=
  battleOrderGo equipment player_info invalid 302 scrapbook counts
    si_best.head? 0

/-- The emitted name sequence (`target_list` in the source). -/
def copyBattleOrderNames (equipment : List (EquipmentIdent × List Nat))
    (player_info : List (Nat × CharacterInfo)) (invalid : List String)
    (scrapbook : List EquipmentIdent) (counts : List (Nat × Nat))
    (si_best : List AttackTarget) : List String :=
  (copyBattleOrder equipment player_info invalid scrapbook counts si_best).map
    fun t => t.info.name

/-! ## The WorkQueue transition system (claim C3)

The queue operations named by the claim — `next_action` pops, page and
account completion, failure reporting, revival replay — acting on the
per-server crawl state.  The system adds ghost components `outP`/`outA`
recording the page and character actions that have been popped and not yet
reported back; completion and failure transitions consume exactly one
outstanding action, mirroring the worker protocol.  Epoch resets are not
among the claim's operations, so every action carries the current epoch. -/

/-- Crawl state plus the outstanding popped actions. -/
structure SysState where
  cs : CrawlState
  outP : List Nat
  outA : List String
deriving DecidableEq, Repr

/-- All pages recorded in the failure list (of any epoch). -/
def rfP (st : CrawlState) : List Nat :=
  st.recent_failures.filterMap fun a =>
    match a with
    | .page p _ => some p
    | _ => none

/-- One transition of the queue protocol.  Pops mirror the loop of
`Crawler::crawl` (`src/src/crawler.rs` lines 25-58): `Vec::pop` takes the
LAST element; digit-only account names are classified invalid on the spot;
page pops require the account todo list to be exhausted. -/
inductive QStep : SysState → SysState → Prop where
  | popDigit (s : SysState) (l : List String) (a : String)
      (hsplit : s.cs.que.todo_accounts = l ++ [a]) (hd : allDigits a = true) :
      QStep s { s with cs := { s.cs with que := { s.cs.que with
        todo_accounts := l
        invalid_accounts := s.cs.que.invalid_accounts ++ [a] } } }
  | popChar (s : SysState) (l : List String) (a : String)
      (hsplit : s.cs.que.todo_accounts = l ++ [a]) (hd : allDigits a = false) :
      QStep s { s with
        cs := { s.cs with que := { s.cs.que with
          todo_accounts := l
          in_flight_accounts := hsAdd s.cs.que.in_flight_accounts a } }
        outA := s.outA ++ [a] }
  | popPage (s : SysState) (l : List Nat) (p : Nat)
      (hacc : s.cs.que.todo_accounts = [])
      (hsplit : s.cs.que.todo_pages = l ++ [p]) :
      QStep s { s with
        cs := { s.cs with que := { s.cs.que with
          todo_pages := l
          in_flight_pages := s.cs.que.in_flight_pages ++ [p] } }
        outP := s.outP ++ [p] }
  | completePage (s : SysState) (p : Nat) (disc : List (Nat × String))
      (hp : p ∈ s.outP) :
      QStep s { s with
        cs := { s.cs with que := completePage s.cs.que p s.cs.que.que_id disc }
        outP := s.outP.erase p }
  | completeChar (s : SysState) (ch : CharacterInfo)
      (ha : ch.name ∈ s.outA) :
      QStep s { s with
        cs := handleCharacterCrawled s.cs s.cs.que_id ch
        outA := s.outA.erase ch.name }
  | charNF (s : SysState) (a : String) (ha : a ∈ s.outA) :
      QStep s { s with
        cs := { s.cs with que := charNotFound s.cs.que a s.cs.que.que_id }
        outA := s.outA.erase a }
  | failPage (s : SysState) (p : Nat) (err : CrawlerError) (hp : p ∈ s.outP) :
      QStep s { s with
        cs := (handleCrawlerUnable s.cs (.page p s.cs.que_id) err).1
        outP := s.outP.erase p }
  | failChar (s : SysState) (a : String) (err : CrawlerError)
      (ha : a ∈ s.outA) :
      QStep s { s with
        cs := (handleCrawlerUnable s.cs (.character a s.cs.que_id) err).1
        outA := s.outA.erase a }
  | revive (s : SysState) :
      QStep s { s with cs := handleCrawlerRevived s.cs }

/-- Initial states: a fresh or backup-restored queue. No work is in flight,
no failures are recorded, the todo pages are duplicate-free and disjoint
from the invalid pages (fresh restores have no invalid pages at all;
`WorkerQue::create_backup` preserves this shape). -/
def InitState (s : SysState) : Prop :=
  s.cs.que.in_flight_pages = [] ∧ s.cs.que.in_flight_accounts = [] ∧
    s.cs.recent_failures = [] ∧ s.outP = [] ∧ s.outA = [] ∧
    s.cs.que.todo_pages.Nodup ∧
    (∀ x ∈ s.cs.que.todo_pages, x ∉ s.cs.que.invalid_pages)

/-- States reachable from an initial state by the queue operations. -/
inductive ReachQ : SysState → Prop where
  | init (s : SysState) (h : InitState s) : ReachQ s
  | step (s t : SysState) (h : ReachQ s) (hs : QStep s t) : ReachQ t

/-- The inductive invariant for the PAGE partitions: pairwise disjointness
together with the bookkeeping facts that push it through every transition. -/
structure PageInv (s : SysState) : Prop where
  todo_inflight : ∀ x ∈ s.cs.que.todo_pages, x ∉ s.cs.que.in_flight_pages
  todo_invalid : ∀ x ∈ s.cs.que.todo_pages, x ∉ s.cs.que.invalid_pages
  inflight_invalid : ∀ x ∈ s.cs.que.in_flight_pages, x ∉ s.cs.que.invalid_pages
  out_inflight : ∀ x ∈ s.outP, x ∈ s.cs.que.in_flight_pages
  todo_nodup : s.cs.que.todo_pages.Nodup
  inflight_nodup : s.cs.que.in_flight_pages.Nodup
  out_nodup : s.outP.Nodup
  rf_invalid : ∀ p ∈ rfP s.cs, p ∈ s.cs.que.invalid_pages
  rf_nodup : (rfP s.cs).Nodup

/-! ## Concrete fixtures for scenario evaluation -/

/-- A small concrete queue: epoch 2, page 7 and account "X" in flight. -/
def exQue : WorkerQue where
  que_id := 2
  todo_pages := []
  todo_accounts := []
  invalid_pages := []
  invalid_accounts := []
  in_flight_pages := [7]
  in_flight_accounts := ["X"]
  order := .bottomUp
  lvl_skipped_accounts := []
  min_level := 1
  max_level := 100
  self_init := false

/-- A concrete crawl state around `exQue`, with a registered session. -/
def exCS : CrawlState where
  que_id := 2
  que := exQue
  player_info := []
  equipment := []
  recent_failures := []
  naked := []
  hasSession := true

/-- A concrete crawled character record named "X". -/
def exCh : CharacterInfo := ⟨[], "X", 1, 10, none, none, none⟩

/-- `exCS` with one recorded failure. -/
def exCSrf : CrawlState := { exCS with recent_failures := [.page 3 2] }

/-- Queue with "alice" parked at level 5 and "bob" parked at level 50. -/
def exQueC4 : WorkerQue :=
  { exQue with lvl_skipped_accounts := [(5, ["alice"]), (50, ["bob"])] }

/-- An item whose owner's stored record does not list it (the player
database and the equipment index are separate structures and can diverge). -/
def c7Item : EquipmentIdent := ⟨0, 1⟩

/-- A player record with an empty equipment list. -/
def c7P : CharacterInfo := ⟨[], "p", 1, 10, none, some 5, none⟩

/-- Index claiming player 1 owns `c7Item`. -/
def c7Equipment : List (EquipmentIdent × List Nat) := [(c7Item, [1])]

/-- Database holding only `c7P`. -/
def c7PlayerInfo : List (Nat × CharacterInfo) := [(1, c7P)]

/-- The per-player counts of the `c7` scenario. -/
def c7Counts : List (Nat × Nat) :=
  calc_per_player_count c7PlayerInfo c7Equipment [] 100 100 [] 5

/-- The stored ranked list of the `c7` scenario. -/
def c7Best : List AttackTarget := [⟨1, c7P⟩]

/-- Low-stats player owning the shared item. -/
def c8A : CharacterInfo := ⟨[⟨0, 1⟩], "alice", 1, 10, none, some 10, none⟩

/-- High-stats player owning the shared item. -/
def c8B : CharacterInfo := ⟨[⟨0, 1⟩], "bob", 2, 10, none, some 99, none⟩

/-- Item X owned exactly by players 1 and 2. -/
def c8Equipment : List (EquipmentIdent × List Nat) := [(⟨0, 1⟩, [1, 2])]

/-- Database for the C8 scenario. -/
def c8PlayerInfo : List (Nat × CharacterInfo) := [(1, c8A), (2, c8B)]

/-- Per-player counts of the C8 scenario with an empty local scrapbook. -/
def c8Counts : List (Nat × Nat) :=
  calc_per_player_count c8PlayerInfo c8Equipment [] 100 1000 [] 5

/-- Initial queue of the C3 trace: two todo pages, nothing else. -/
def c3q0 : WorkerQue :=
  { exQue with todo_pages := [0, 1], in_flight_pages := [],
               in_flight_accounts := [] }

/-- Initial state of the C3 trace. -/
def c3s0 : SysState where
  cs := { exCS with que := c3q0 }
  outP := []
  outA := []

/-- C3 trace after popping page 1. -/
def c3s1 : SysState where
  cs := { exCS with que :=
    { c3q0 with todo_pages := [0], in_flight_pages := [1] } }
  outP := [1]
  outA := []

/-- C3 trace after completing page 1, which discovered account "123" at
level 5. -/
def c3s2 : SysState where
  cs := { exCS with que :=
    { c3q0 with todo_pages := [0], todo_accounts := ["123"] } }
  outP := []
  outA := []

/-- C3 trace after the pop classified the digit-only name "123" invalid. -/
def c3s3 : SysState where
  cs := { exCS with que :=
    { c3q0 with todo_pages := [0], invalid_accounts := ["123"] } }
  outP := []
  outA := []

/-- C3 trace after popping page 0. -/
def c3s4 : SysState where
  cs := { exCS with que :=
    { c3q0 with todo_pages := [], in_flight_pages := [0],
                invalid_accounts := ["123"] } }
  outP := [0]
  outA := []

/-- Final state of the C3 trace: the digit-only name "123" sits in todo and
in invalid simultaneously. -/
def c3sBad : SysState where
  cs := { exCS with que :=
    { c3q0 with todo_pages := [], todo_accounts := ["123"],
                invalid_accounts := ["123"] } }
  outP := []
  outA := []

theorem decNat_encNat (n : Nat) : decNat (encNat n) = some n := rfl

theorem decStr_encStr (s : String) : decStr (encStr s) = some s := rfl

theorem decOptNat_encOptNat (o : Option Nat) :
    decOptNat (encOptNat o) = some o := by cases o <;> rfl

theorem decOrder_encOrder (o : CrawlingOrder) :
    decOrder (encOrder o) = some o := by cases o <;> rfl

theorem decIdent_encIdent (i : EquipmentIdent) :
    decIdent (encIdent i) = some i := rfl

theorem decList_encList (dec : Json → Option α) (enc : α → Json)
    (h : ∀ x, dec (enc x) = some x) (l : List α) :
    decList dec (encList enc l) = some l := by
  induction l with
  | nil => rfl
  | cons x xs ih =>
    simp only [encList, List.map, decList, decListAux, h x, Option.bind_eq_bind,
      Option.some_bind]
    simp only [encList, decList] at ih
    simp [ih]

theorem decChar_encChar (c : CharacterInfo) : decChar (encChar c) = some c := by
  simp [encChar, decChar,
    decList_encList decIdent encIdent decIdent_encIdent,
    decOptNat_encOptNat, decNat, decStr, encNat, encStr]

theorem decBackup_encBackup (b : ZHofBackup) :
    decBackup (encBackup b) = some b := by
  simp [encBackup, decBackup,
    decList_encList decNat encNat decNat_encNat,
    decList_encList decStr encStr decStr_encStr,
    decList_encList decChar encChar decChar_encChar,
    decOrder_encOrder, decOptNat_encOptNat]

/-! ## Association-map lemmas -/

theorem mapLookup_mapInsert_self [DecidableEq κ] (m : List (κ × ν)) (k : κ)
    (v : ν) : mapLookup (mapInsert m k v) k = some v := by
  induction m with
  | nil => simp [mapInsert, mapLookup]
  | cons kv rest ih =>
    obtain ⟨k1, v1⟩ := kv
    by_cases h : k1 = k
    · simp [mapInsert, h, mapLookup]
    · simp [mapInsert, h, mapLookup, ih]

theorem mapLookup_mapInsert_ne [DecidableEq κ] (m : List (κ × ν)) (k k2 : κ)
    (v : ν) (h : k2 ≠ k) :
    mapLookup (mapInsert m k v) k2 = mapLookup m k2 := by
  have hk : ¬ k = k2 := fun hh => h hh.symm
  induction m with
  | nil => simp [mapInsert, mapLookup, hk]
  | cons kv rest ih =>
    obtain ⟨k1, v1⟩ := kv
    by_cases h1 : k1 = k
    · subst h1
      simp [mapInsert, mapLookup, hk]
    · by_cases h2 : k1 = k2
      · simp [mapInsert, h1, mapLookup, h2, h]
      · simp [mapInsert, h1, mapLookup, h2, ih]

theorem mem_hsAdd [DecidableEq α] (l : List α) (a x : α) :
    x ∈ hsAdd l a ↔ x ∈ l ∨ x = a := by
  unfold hsAdd
  by_cases h : a ∈ l
  · simp only [if_pos h]
    constructor
    · exact Or.inl
    · rintro (hx | rfl)
      · exact hx
      · exact h
  · simp [if_neg h]

theorem ownersOf_indexAdd [DecidableEq ι] (e : List (ι × List Nat)) (i j : ι)
    (u : Nat) :
    ownersOf (indexAdd e j u) i =
      if i = j then hsAdd (ownersOf e j) u else ownersOf e i := by
  unfold indexAdd ownersOf
  by_cases h : i = j
  · subst h
    simp [mapLookup_mapInsert_self]
  · simp [h, mapLookup_mapInsert_ne e j i _ h]

theorem mem_ownersOf_foldAdd_of_mem [DecidableEq ι] (l : List ι)
    (e : List (ι × List Nat)) (u : Nat) (i : ι) (x : Nat)
    (hx : x ∈ ownersOf e i) :
    x ∈ ownersOf (l.foldl (fun acc j => indexAdd acc j u) e) i := by
  induction l generalizing e with
  | nil => exact hx
  | cons j rest ih =>
    refine ih (indexAdd e j u) ?_
    rw [ownersOf_indexAdd]
    by_cases h : i = j
    · subst h
      simp only [if_pos rfl]
      exact (mem_hsAdd _ _ _).2 (Or.inl hx)
    · simpa [h] using hx

theorem self_mem_ownersOf_foldAdd [DecidableEq ι] (l : List ι)
    (e : List (ι × List Nat)) (u : Nat) (i : ι) (hi : i ∈ l) :
    u ∈ ownersOf (l.foldl (fun acc j => indexAdd acc j u) e) i := by
  induction l generalizing e with
  | nil => cases hi
  | cons j rest ih =>
    rcases List.mem_cons.1 hi with rfl | hrest
    · refine mem_ownersOf_foldAdd_of_mem rest (indexAdd e i u) u i u ?_
      rw [ownersOf_indexAdd]
      simp only [if_pos rfl]
      exact (mem_hsAdd _ _ _).2 (Or.inr rfl)
    · exact ih (indexAdd e j u) hrest

theorem mem_ownersOf_foldAdd [DecidableEq ι] (l : List ι)
    (e : List (ι × List Nat)) (u : Nat) (i : ι) (x : Nat)
    (hx : x ∈ ownersOf (l.foldl (fun acc j => indexAdd acc j u) e) i) :
    x ∈ ownersOf e i ∨ x = u := by
  induction l generalizing e with
  | nil => exact Or.inl hx
  | cons j rest ih =>
    rcases ih (indexAdd e j u) hx with h | h
    · rw [ownersOf_indexAdd] at h
      by_cases hij : i = j
      · subst hij
        simp only [if_pos rfl] at h
        rcases (mem_hsAdd _ _ _).1 h with h2 | h2
        · exact Or.inl h2
        · exact Or.inr h2
      · simp only [if_neg hij] at h
        exact Or.inl h
    · exact Or.inr h

/-! ## Claim C2: the cited upsert and the EquipmentIndex invariant -/

/-- C2, counterexample.  Upserting player 1 first with item `⟨0,1⟩` and then
with an empty equipment list (the cited `handle_new_char_info` of
`src/src/main.rs` lines 901-915 / `src/src/observer.rs` lines 476-490)
leaves player 1 in the owner set of `⟨0,1⟩` although the stored record no
longer contains that item: the old record's items are never removed, and
the claimed invariant fails. -/
theorem c2_counterexample :
    1 ∈ ownersOf (applyUpserts [⟨[⟨0, 1⟩], "p", 1, 10⟩, ⟨[], "p", 1, 10⟩]).1 ⟨0, 1⟩ ∧
    mapLookup (applyUpserts [⟨[⟨0, 1⟩], "p", 1, 10⟩, ⟨[], "p", 1, 10⟩]).2 1 =
      some ⟨[], "p", 1, 10⟩ ∧
    (⟨0, 1⟩ : EquipmentIdent) ∉
      (⟨[], "p", 1, 10⟩ : CharacterInfoV1).equipment := by
  decide

theorem dbInv_upsert (e : List (EquipmentIdent × List Nat))
    (pi : List (Nat × CharacterInfoV1)) (ch : CharacterInfoV1)
    (h1 : ∀ i : EquipmentIdent, ∀ u ∈ ownersOf e i,
      ∃ c, mapLookup pi u = some c)
    (h2 : ∀ u c, mapLookup pi u = some c → ∀ i ∈ c.equipment,
      u ∈ ownersOf e i) :
    (∀ i : EquipmentIdent, ∀ u ∈ ownersOf (upsertV1 (e, pi) ch).1 i,
      ∃ c, mapLookup (upsertV1 (e, pi) ch).2 u = some c) ∧
    (∀ u c, mapLookup (upsertV1 (e, pi) ch).2 u = some c →
      ∀ i ∈ c.equipment, u ∈ ownersOf (upsertV1 (e, pi) ch).1 i) := by
  constructor
  · intro i u hu
    rcases mem_ownersOf_foldAdd ch.equipment e ch.uid i u hu with h | rfl
    · obtain ⟨c, hc⟩ := h1 i u h
      by_cases he : u = ch.uid
      · subst he
        exact ⟨ch, mapLookup_mapInsert_self _ _ _⟩
      · exact ⟨c, by
          show mapLookup (mapInsert pi ch.uid ch) u = some c
          rw [mapLookup_mapInsert_ne pi ch.uid u ch he]
          exact hc⟩
    · exact ⟨ch, mapLookup_mapInsert_self _ _ _⟩
  · intro u c hc i hi
    by_cases he : u = ch.uid
    · subst he
      have hs := mapLookup_mapInsert_self pi ch.uid ch
      have hcc : c = ch := by
        have h3 : some ch = some c := hs.symm.trans hc
        exact (Option.some.inj h3).symm
      subst hcc
      exact self_mem_ownersOf_foldAdd c.equipment e c.uid i hi
    · have hc2 : mapLookup pi u = some c := by
        have h4 := mapLookup_mapInsert_ne pi ch.uid u ch he
        rw [← h4]
        exact hc
      exact mem_ownersOf_foldAdd_of_mem ch.equipment e ch.uid i u
        (h2 u c hc2 i hi)

theorem dbInv_foldl (chars : List CharacterInfoV1)
    (acc : List (EquipmentIdent × List Nat) × List (Nat × CharacterInfoV1))
    (h1 : ∀ i : EquipmentIdent, ∀ u ∈ ownersOf acc.1 i,
      ∃ c, mapLookup acc.2 u = some c)
    (h2 : ∀ u c, mapLookup acc.2 u = some c → ∀ i ∈ c.equipment,
      u ∈ ownersOf acc.1 i) :
    (∀ i : EquipmentIdent, ∀ u ∈ ownersOf (chars.foldl upsertV1 acc).1 i,
      ∃ c, mapLookup (chars.foldl upsertV1 acc).2 u = some c) ∧
    (∀ u c, mapLookup (chars.foldl upsertV1 acc).2 u = some c →
      ∀ i ∈ c.equipment, u ∈ ownersOf (chars.foldl upsertV1 acc).1 i) := by
  induction chars generalizing acc with
  | nil => exact ⟨h1, h2⟩
  | cons ch rest ih =>
    obtain ⟨e, pi⟩ := acc
    obtain ⟨g1, g2⟩ := dbInv_upsert e pi ch h1 h2
    exact ih (upsertV1 (e, pi) ch) g1 g2

/-- C2, amended.  The cited upsert inserts the incoming record's items into
the index and replaces the stored record, without removing the old record's
items; the invariant that actually holds after every sequence of upserts
from an empty database is: every player id in any owner set has a record in
the database, and every stored record's items each list the record's id in
their owner set (items of superseded records may linger in the index). -/
theorem c2_amended_index_invariant (chars : List CharacterInfoV1) :
    (∀ i : EquipmentIdent, ∀ u ∈ ownersOf (applyUpserts chars).1 i,
      ∃ c, mapLookup (applyUpserts chars).2 u = some c) ∧
    (∀ u c, mapLookup (applyUpserts chars).2 u = some c →
      ∀ i ∈ c.equipment, u ∈ ownersOf (applyUpserts chars).1 i) := by
  refine dbInv_foldl chars ([], []) ?_ ?_
  · intro i u hu
    simp [ownersOf, mapLookup] at hu
  · intro u c hc
    simp [mapLookup] at hc

/-- C2, witness for the amended theorem: after upserting the record of
player 1 holding item `⟨0,1⟩`, the amended invariant places player 1 in
that item's owner set. -/
theorem c2_witness :
    1 ∈ ownersOf (applyUpserts [⟨[⟨0, 1⟩], "p", 1, 10⟩]).1 ⟨0, 1⟩ :=
  (c2_amended_index_invariant [⟨[⟨0, 1⟩], "p", 1, 10⟩]).2 1
    ⟨[⟨0, 1⟩], "p", 1, 10⟩ (by decide) ⟨0, 1⟩ (by decide)

/-! ## Claims C9 and C10: the backup codec -/

/-- C9: writing a snapshot and reading the produced document back yields the
snapshot with only the per-character `fetch_date` and `stats` fields
dropped; every other snapshot field and every other character field is
preserved.  (The zlib layer is a lossless codec, modelled as identity.) -/
theorem c9_backup_roundtrip (b : ZHofBackup) :
    (zhofWrite true b).2 = some (encBackup (stripBackup b)) ∧
    zhofRead (encBackup (stripBackup b)) = some (stripBackup b) ∧
    (stripBackup b).todo_pages = b.todo_pages ∧
    (stripBackup b).invalid_pages = b.invalid_pages ∧
    (stripBackup b).todo_accounts = b.todo_accounts ∧
    (stripBackup b).invalid_accounts = b.invalid_accounts ∧
    (stripBackup b).order = b.order ∧
    (stripBackup b).export_time = b.export_time ∧
    (stripBackup b).characters = b.characters.map stripChar ∧
    ∀ c : CharacterInfo,
      (stripChar c).equipment = c.equipment ∧ (stripChar c).name = c.name ∧
      (stripChar c).uid = c.uid ∧ (stripChar c).level = c.level ∧
      (stripChar c).cls = c.cls ∧ (stripChar c).fetch_date = none ∧
      (stripChar c).stats = none :=
  ⟨rfl, decBackup_encBackup _, rfl, rfl, rfl, rfl, rfl, rfl, rfl,
    fun _ => ⟨rfl, rfl, rfl, rfl, rfl, rfl, rfl⟩⟩

/-- C10: `ZHofBackup::write` mutates the snapshot it is called on.  Whether
or not the file operation succeeds, every character in the in-memory
snapshot afterwards has `fetch_date = none` and `stats = none` (the
stripping runs before the file is created), while every other snapshot
field and every other character field is unchanged. -/
theorem c10_write_strips_in_memory (fileOk : Bool) (b : ZHofBackup) :
    (zhofWrite fileOk b).1 = stripBackup b ∧
    ((zhofWrite fileOk b).1.characters.all
      fun c => (c.fetch_date == none) && (c.stats == none)) = true ∧
    (zhofWrite fileOk b).1.todo_pages = b.todo_pages ∧
    (zhofWrite fileOk b).1.invalid_pages = b.invalid_pages ∧
    (zhofWrite fileOk b).1.todo_accounts = b.todo_accounts ∧
    (zhofWrite fileOk b).1.invalid_accounts = b.invalid_accounts ∧
    (zhofWrite fileOk b).1.order = b.order ∧
    (zhofWrite fileOk b).1.export_time = b.export_time ∧
    (zhofWrite fileOk b).1.characters = b.characters.map stripChar ∧
    ∀ c : CharacterInfo,
      (stripChar c).equipment = c.equipment ∧ (stripChar c).name = c.name ∧
      (stripChar c).uid = c.uid ∧ (stripChar c).level = c.level ∧
      (stripChar c).cls = c.cls := by
  refine ⟨rfl, ?_, rfl, rfl, rfl, rfl, rfl, rfl, rfl,
    fun _ => ⟨rfl, rfl, rfl, rfl, rfl⟩⟩
  show ((b.characters.map stripChar).all
    fun c => (c.fetch_date == none) && (c.stats == none)) = true
  simp [List.all_map, stripChar, Function.comp]

/-! ## Claim C4: `set_level_range` moves the wrong buckets -/

/-- C4: evaluation of `Message::CrawlerSetMinMax` at the failing input.
With "alice" parked at level 5 and "bob" parked at level 50, setting the
range to [1,10] leaves "alice" (whose level 5 now lies INSIDE the range)
parked, and moves "bob" (level 50, OUTSIDE the range) into todo — the exact
inverse of the claimed reinstatement.  Nothing moves from todo into the
bucket either (todo account levels are unknown to the queue). -/
theorem c4_code_bug_eval :
    (crawlerSetMinMax exQueC4 1 10).min_level = 1 ∧
    (crawlerSetMinMax exQueC4 1 10).max_level = 10 ∧
    (crawlerSetMinMax exQueC4 1 10).lvl_skipped_accounts = [(5, ["alice"])] ∧
    (crawlerSetMinMax exQueC4 1 10).todo_accounts = ["bob"] := by
  decide

/-! ## Claim C5: failure kinds and the partitions -/

/-- C5: failing an in-flight unit under the current epoch with `RateLimit`
removes it from in-flight and appends it to todo exactly once, leaving
invalid untouched; failing it with any other kind appends it to invalid,
leaving todo untouched.  Stated for pages and for accounts. -/
theorem c5_fail_requeue (st : CrawlState) (p : Nat) (a : String)
    (qid : Nat) (err : CrawlerError) (h : qid = st.que_id) :
    ((handleCrawlerUnable st (.page p qid) .rateLimit).1.que.todo_pages =
        st.que.todo_pages ++ [p] ∧
      List.count p
          (handleCrawlerUnable st (.page p qid) .rateLimit).1.que.todo_pages =
        List.count p st.que.todo_pages + 1 ∧
      (handleCrawlerUnable st (.page p qid) .rateLimit).1.que.invalid_pages =
        st.que.invalid_pages ∧
      (handleCrawlerUnable st (.page p qid) .rateLimit).1.que.in_flight_pages =
        st.que.in_flight_pages.filter fun x => decide (x ≠ p)) ∧
    ((handleCrawlerUnable st (.character a qid) .rateLimit).1.que.todo_accounts =
        st.que.todo_accounts ++ [a] ∧
      List.count a
          (handleCrawlerUnable st (.character a qid) .rateLimit).1.que.todo_accounts =
        List.count a st.que.todo_accounts + 1 ∧
      (handleCrawlerUnable st (.character a qid) .rateLimit).1.que.invalid_accounts =
        st.que.invalid_accounts ∧
      (handleCrawlerUnable st (.character a qid) .rateLimit).1.que.in_flight_accounts =
        st.que.in_flight_accounts.filter fun x => decide (x ≠ a)) ∧
    (err ≠ .rateLimit →
      (handleCrawlerUnable st (.page p qid) err).1.que.invalid_pages =
        st.que.invalid_pages ++ [p] ∧
      (handleCrawlerUnable st (.page p qid) err).1.que.todo_pages =
        st.que.todo_pages ∧
      (handleCrawlerUnable st (.page p qid) err).1.que.in_flight_pages =
        st.que.in_flight_pages.filter fun x => decide (x ≠ p)) ∧
    (err ≠ .rateLimit →
      (handleCrawlerUnable st (.character a qid) err).1.que.invalid_accounts =
        st.que.invalid_accounts ++ [a] ∧
      (handleCrawlerUnable st (.character a qid) err).1.que.todo_accounts =
        st.que.todo_accounts ∧
      (handleCrawlerUnable st (.character a qid) err).1.que.in_flight_accounts =
        st.que.in_flight_accounts.filter fun x => decide (x ≠ a)) := by
  subst h
  refine ⟨?_, ?_, ?_, ?_⟩
  · simp [handleCrawlerUnable, List.count_append]
  · simp [handleCrawlerUnable, List.count_append]
  · intro hne
    cases err with
    | rateLimit => exact absurd rfl hne
    | notFound => simp [handleCrawlerUnable, crawlerUnableEscalate]
    | generic => simp [handleCrawlerUnable, crawlerUnableEscalate]
  · intro hne
    cases err with
    | rateLimit => exact absurd rfl hne
    | notFound => simp [handleCrawlerUnable, crawlerUnableEscalate]
    | generic => simp [handleCrawlerUnable, crawlerUnableEscalate]

/-- C5, witness: the concrete queue with page 7 and account "X" in flight
under epoch 2. -/
theorem c5_witness :
    (handleCrawlerUnable exCS (.page 7 2) .rateLimit).1.que.todo_pages =
      exCS.que.todo_pages ++ [7] ∧
    (handleCrawlerUnable exCS (.character "X" 2) .generic).1.que.invalid_accounts =
      exCS.que.invalid_accounts ++ ["X"] :=
  ⟨(c5_fail_requeue exCS 7 "X" 2 .generic rfl).1.1,
    ((c5_fail_requeue exCS 7 "X" 2 .generic rfl).2.2.2 (by decide)).1⟩

/-! ## Claim C6: the FailureSupervisor -/

/-- C6, counterexample.  `Message::PageCrawled` is a no-op, so a successful
page fetch does not reset the consecutive-failure list: with one recorded
failure, the list is still non-empty after the page success is processed.
The claim "any successful action resets the list to empty" fails. -/
theorem c6_counterexample :
    (handlePageCrawled exCSrf).recent_failures ≠ [] := by decide

/-- C6, amended.  The failure list grows only on `Generic` failures of page
or character actions (`NotFound` and `RateLimit` never enter it), it grows
by exactly the failed action, the re-login task is spawned exactly when the
list reaches length 10 with a crawling session registered, and a successful
CHARACTER crawl under the current epoch resets the list to empty (a
successful page crawl does not, and a stale-epoch success does not). -/
theorem c6_amended_failure_supervisor (st : CrawlState) (p : Nat) (a : String)
    (qid : Nat) (err : CrawlerError) (ch : CharacterInfo) :
    (err ≠ .generic →
      (handleCrawlerUnable st (.page p qid) err).1.recent_failures =
        st.recent_failures) ∧
    (err ≠ .generic →
      (handleCrawlerUnable st (.character a qid) err).1.recent_failures =
        st.recent_failures) ∧
    (qid = st.que_id →
      (handleCrawlerUnable st (.page p qid) .generic).1.recent_failures =
        st.recent_failures ++ [.page p qid]) ∧
    (qid = st.que_id →
      (handleCrawlerUnable st (.character a qid) .generic).1.recent_failures =
        st.recent_failures ++ [.character a qid]) ∧
    (qid = st.que_id →
      (handleCrawlerUnable st (.page p qid) .generic).2 =
        ((st.recent_failures.length + 1 == 10) && st.hasSession)) ∧
    ((handleCrawlerUnable st (.page p qid) err).2 = true →
      (handleCrawlerUnable st (.page p qid) err).1.recent_failures.length = 10 ∧
      st.hasSession = true) ∧
    (qid = st.que_id →
      (handleCharacterCrawled st qid ch).recent_failures = []) := by
  by_cases hq : qid = st.que_id
  · subst hq
    refine ⟨?_, ?_, ?_, ?_, ?_, ?_, ?_⟩
    · intro hne
      cases err with
      | generic => exact absurd rfl hne
      | notFound => simp [handleCrawlerUnable, crawlerUnableEscalate]
      | rateLimit => simp [handleCrawlerUnable, crawlerUnableEscalate]
    · intro hne
      cases err with
      | generic => exact absurd rfl hne
      | notFound => simp [handleCrawlerUnable, crawlerUnableEscalate]
      | rateLimit => simp [handleCrawlerUnable, crawlerUnableEscalate]
    · intro _
      simp [handleCrawlerUnable, crawlerUnableEscalate]
    · intro _
      simp [handleCrawlerUnable, crawlerUnableEscalate]
    · intro _
      simp [handleCrawlerUnable, crawlerUnableEscalate]
    · intro htrig
      cases err with
      | notFound =>
        simp [handleCrawlerUnable, crawlerUnableEscalate] at htrig
      | rateLimit =>
        simp [handleCrawlerUnable, crawlerUnableEscalate] at htrig
      | generic =>
        have hred : (handleCrawlerUnable st (.page p st.que_id) .generic).2 =
            (((st.recent_failures ++ [CrawlAction.page p st.que_id]).length
              == 10) && st.hasSession) := by
          simp [handleCrawlerUnable, crawlerUnableEscalate]
        have hrf :
            (handleCrawlerUnable st (.page p st.que_id) .generic).1.recent_failures =
            st.recent_failures ++ [CrawlAction.page p st.que_id] := by
          simp [handleCrawlerUnable, crawlerUnableEscalate]
        rw [hred, Bool.and_eq_true] at htrig
        simp only [beq_iff_eq] at htrig
        refine ⟨?_, htrig.2⟩
        rw [hrf]
        exact htrig.1
    · intro _
      simp [handleCharacterCrawled]
  · refine ⟨?_, ?_, ?_, ?_, ?_, ?_, ?_⟩
    · intro _
      simp [handleCrawlerUnable, hq]
    · intro _
      simp [handleCrawlerUnable, hq]
    · intro hh
      exact absurd hh hq
    · intro hh
      exact absurd hh hq
    · intro hh
      exact absurd hh hq
    · intro htrig
      simp [handleCrawlerUnable, hq] at htrig
    · intro hh
      exact absurd hh hq

/-- C6, witness: a successful character crawl under the current epoch on the
concrete state clears the failure list. -/
theorem c6_witness :
    (handleCharacterCrawled exCS 2 exCh).recent_failures = [] :=
  (c6_amended_failure_supervisor exCS 0 "X" 2 .generic exCh).2.2.2.2.2.2 rfl

/-! ## Claim C1: stale-epoch results -/

/-- C1, counterexample.  A character result carrying the stale epoch 1
(the queue's current epoch is 2) still mutates the WorkQueue: the character
name is removed from the in-flight account set before the epoch comparison
(`src/src/message.rs` line 298 precedes the check at line 302), so the
claim that the queue is left unchanged fails. -/
theorem c1_counterexample :
    (handleCharacterCrawled exCS 1 exCh).que ≠ exCS.que := by decide

/-- C1, amended.  A character result with a stale epoch leaves the player
database, the equipment index, the failure list and the todo/invalid
partitions unchanged, and only removes the character's name from the
in-flight account set; a successful page result is applied to the queue
without consulting its epoch at all. -/
theorem c1_amended_stale_epoch (st : CrawlState) (qid : Nat)
    (ch : CharacterInfo) (q : WorkerQue) (p e1 e2 : Nat)
    (disc : List (Nat × String)) (h : st.que_id ≠ qid) :
    handleCharacterCrawled st qid ch =
      { st with que := { st.que with in_flight_accounts :=
          st.que.in_flight_accounts.filter fun x => decide (x ≠ ch.name) } } ∧
    completePage q p e1 disc = completePage q p e2 disc := by
  constructor
  · simp [handleCharacterCrawled, h]
  · rfl

/-- C1, witness: the stale character result on the concrete state, with the
frame equality evaluated. -/
theorem c1_witness :
    handleCharacterCrawled exCS 1 exCh =
      { exCS with que := { exCS.que with in_flight_accounts :=
          exCS.que.in_flight_accounts.filter fun x => decide (x ≠ exCh.name) } } :=
  (c1_amended_stale_epoch exCS 1 exCh exQue 0 0 1 [] (by decide)).1

/-! ## Claim C7: the greedy battle-order loop -/

theorem battleOrderGo_length_le (equipment : List (EquipmentIdent × List Nat))
    (player_info : List (Nat × CharacterInfo)) (invalid : List String) :
    ∀ (fuel : Nat) (sb : List EquipmentIdent) (counts : List (Nat × Nat))
      (best : Option AttackTarget) (lc : Nat),
      (battleOrderGo equipment player_info invalid fuel sb counts best lc).length
        ≤ 301 - lc := by
  intro fuel
  induction fuel with
  | zero =>
    intro sb counts best lc
    cases best <;> simp [battleOrderGo]
  | succ n ih =>
    intro sb counts best lc
    cases best with
    | none => simp [battleOrderGo]
    | some t =>
      by_cases hc : 300 < lc ∨ t.missing = 0
      · simp [battleOrderGo, hc]
      · have h2 : ¬ 300 < lc := fun hh => hc (Or.inl hh)
        simp only [battleOrderGo, if_neg hc, List.length_cons]
        refine le_trans (Nat.succ_le_succ (ih _ _ _ (lc + 1))) ?_
        omega

theorem battleOrderGo_missing_pos (equipment : List (EquipmentIdent × List Nat))
    (player_info : List (Nat × CharacterInfo)) (invalid : List String) :
    ∀ (fuel : Nat) (sb : List EquipmentIdent) (counts : List (Nat × Nat))
      (best : Option AttackTarget) (lc : Nat),
      ((battleOrderGo equipment player_info invalid fuel sb counts best lc).all
        fun t => t.missing != 0) = true := by
  intro fuel
  induction fuel with
  | zero =>
    intro sb counts best lc
    cases best <;> simp [battleOrderGo]
  | succ n ih =>
    intro sb counts best lc
    cases best with
    | none => simp [battleOrderGo]
    | some t =>
      by_cases hc : 300 < lc ∨ t.missing = 0
      · simp [battleOrderGo, hc]
      · have hm : ¬ t.missing = 0 := fun hh => hc (Or.inr hh)
        simp only [battleOrderGo, if_neg hc, List.all_cons]
        rw [ih]
        simp [hm]

set_option maxRecDepth 40000 in
/-- C7, counterexample.  With a player whose stored record lists no
equipment while the index still credits them with an item (a divergence the
database permits, see C2), the loop never decrements their count and emits
them every iteration: the computation performs 301 iterations, not at most
300 — the guard `loop_count > 300` runs after the increment. -/
theorem c7_counterexample :
    ¬ (copyBattleOrder c7Equipment c7PlayerInfo [] [] c7Counts c7Best).length
      ≤ 300 := by
  decide

/-- C7, amended.  The greedy battle-order computation performs at most 301
iterations (the cap check `loop_count > 300` admits loop counts 0 through
300 before stopping), and no target it appends to the output has a
missing-item count of zero (the loop breaks before emitting when
`missing == 0`). -/
theorem c7_amended_battle_order (equipment : List (EquipmentIdent × List Nat))
    (player_info : List (Nat × CharacterInfo)) (invalid : List String)
    (scrapbook : List EquipmentIdent) (counts : List (Nat × Nat))
    (si_best : List AttackTarget) :
    (copyBattleOrder equipment player_info invalid scrapbook counts si_best).length
      ≤ 301 ∧
    ((copyBattleOrder equipment player_info invalid scrapbook counts si_best).all
      fun t => t.missing != 0) = true := by
  constructor
  · have h := battleOrderGo_length_le equipment player_info invalid 302
      scrapbook counts si_best.head? 0
    simpa [copyBattleOrder] using h
  · exact battleOrderGo_missing_pos equipment player_info invalid 302
      scrapbook counts si_best.head? 0

/-! ## Claim C8: ranking ties broken by ascending stats -/

/-- C8: the ranked target list is sorted by the ranking order, and the
ranking order places, among targets with equal missing counts, the one with
lower total stats first (ascending stats within a count bucket). -/
theorem c8_equal_counts_stats_ascending (counts : List (Nat × Nat))
    (player_info : List (Nat × CharacterInfo)) (limit : Nat)
    (invalid : List String) :
    List.Sorted rankLE (find_best counts player_info limit invalid) ∧
    (∀ a b : AttackTarget, rankLE a b → a.missing = b.missing →
      statsVal a.info ≤ statsVal b.info) := by
  constructor
  · show List.Sorted rankLE ((List.insertionSort rankLE _).take limit)
    exact (List.sorted_insertionSort rankLE _).sublist (List.take_sublist _ _)
  · intro a b hab heq
    have h1 : keyOf a ≤ keyOf b := hab
    unfold keyOf at h1
    rw [Prod.Lex.le_iff] at h1
    rcases h1 with hlt | ⟨_, h2⟩
    · exfalso
      rw [heq] at hlt
      exact lt_irrefl _ hlt
    · rw [Prod.Lex.le_iff] at h2
      rcases h2 with hlt2 | ⟨heq2, _⟩
      · exact le_of_lt hlt2
      · exact le_of_eq heq2

/-- C8, witness: item X owned exactly by players 1 and 2, empty local
scrapbook — both counts are 1, and the lower-stats player ranks first. -/
theorem c8_witness :
    c8Counts = [(1, 1), (2, 1)] ∧
    find_best c8Counts c8PlayerInfo 100 [] = [⟨1, c8A⟩, ⟨1, c8B⟩] ∧
    statsVal (AttackTarget.mk 1 c8A).info ≤ statsVal (AttackTarget.mk 1 c8B).info :=
  ⟨by decide, by decide,
    (c8_equal_counts_stats_ascending c8Counts c8PlayerInfo 100 []).2
      ⟨1, c8A⟩ ⟨1, c8B⟩ (by decide) (by decide)⟩

/-! ## Claim C3: frame lemmas for the queue operations -/

theorem absorbAccount_frame (q : WorkerQue) (acc : Nat × String) :
    (absorbAccount q acc).que_id = q.que_id ∧
    (absorbAccount q acc).todo_pages = q.todo_pages ∧
    (absorbAccount q acc).invalid_pages = q.invalid_pages ∧
    (absorbAccount q acc).in_flight_pages = q.in_flight_pages ∧
    (absorbAccount q acc).invalid_accounts = q.invalid_accounts ∧
    (absorbAccount q acc).in_flight_accounts = q.in_flight_accounts := by
  unfold absorbAccount
  split <;> exact ⟨rfl, rfl, rfl, rfl, rfl, rfl⟩

theorem absorbFold_frame (disc : List (Nat × String)) (q : WorkerQue) :
    (disc.foldl absorbAccount q).que_id = q.que_id ∧
    (disc.foldl absorbAccount q).todo_pages = q.todo_pages ∧
    (disc.foldl absorbAccount q).invalid_pages = q.invalid_pages ∧
    (disc.foldl absorbAccount q).in_flight_pages = q.in_flight_pages ∧
    (disc.foldl absorbAccount q).invalid_accounts = q.invalid_accounts ∧
    (disc.foldl absorbAccount q).in_flight_accounts = q.in_flight_accounts := by
  induction disc generalizing q with
  | nil => exact ⟨rfl, rfl, rfl, rfl, rfl, rfl⟩
  | cons d rest ih =>
    have h1 := absorbAccount_frame q d
    have h2 := ih (absorbAccount q d)
    exact ⟨h2.1.trans h1.1, h2.2.1.trans h1.2.1, h2.2.2.1.trans h1.2.2.1,
      h2.2.2.2.1.trans h1.2.2.2.1, h2.2.2.2.2.1.trans h1.2.2.2.2.1,
      h2.2.2.2.2.2.trans h1.2.2.2.2.2⟩

theorem completePage_frame (q : WorkerQue) (p e : Nat)
    (disc : List (Nat × String)) :
    (completePage q p e disc).todo_pages = q.todo_pages ∧
    (completePage q p e disc).invalid_pages = q.invalid_pages ∧
    (completePage q p e disc).in_flight_pages =
      q.in_flight_pages.filter (fun x => decide (x ≠ p)) ∧
    (completePage q p e disc).invalid_accounts = q.invalid_accounts ∧
    (completePage q p e disc).que_id = q.que_id := by
  have h := absorbFold_frame disc q
  unfold completePage
  exact ⟨h.2.1, h.2.2.1, by simp [h.2.2.2.1], h.2.2.2.2.1, h.1⟩

theorem hcc_current_frame (st : CrawlState) (ch : CharacterInfo) :
    (handleCharacterCrawled st st.que_id ch).que.todo_pages =
      st.que.todo_pages ∧
    (handleCharacterCrawled st st.que_id ch).que.invalid_pages =
      st.que.invalid_pages ∧
    (handleCharacterCrawled st st.que_id ch).que.in_flight_pages =
      st.que.in_flight_pages ∧
    (handleCharacterCrawled st st.que_id ch).recent_failures = [] := by
  simp [handleCharacterCrawled]

theorem charNotFound_frame (q : WorkerQue) (a : String) (qid : Nat) :
    (charNotFound q a qid).todo_pages = q.todo_pages ∧
    (charNotFound q a qid).invalid_pages = q.invalid_pages ∧
    (charNotFound q a qid).in_flight_pages = q.in_flight_pages := by
  unfold charNotFound
  split <;> exact ⟨rfl, rfl, rfl⟩

theorem cu_page_rl_frame (st : CrawlState) (p : Nat) :
    (handleCrawlerUnable st (.page p st.que_id) .rateLimit).1.que.todo_pages =
      st.que.todo_pages ++ [p] ∧
    (handleCrawlerUnable st (.page p st.que_id) .rateLimit).1.que.invalid_pages =
      st.que.invalid_pages ∧
    (handleCrawlerUnable st (.page p st.que_id) .rateLimit).1.que.in_flight_pages =
      st.que.in_flight_pages.filter (fun x => decide (x ≠ p)) ∧
    (handleCrawlerUnable st (.page p st.que_id) .rateLimit).1.recent_failures =
      st.recent_failures := by
  simp [handleCrawlerUnable]

theorem cu_page_nf_frame (st : CrawlState) (p : Nat) :
    (handleCrawlerUnable st (.page p st.que_id) .notFound).1.que.todo_pages =
      st.que.todo_pages ∧
    (handleCrawlerUnable st (.page p st.que_id) .notFound).1.que.invalid_pages =
      st.que.invalid_pages ++ [p] ∧
    (handleCrawlerUnable st (.page p st.que_id) .notFound).1.que.in_flight_pages =
      st.que.in_flight_pages.filter (fun x => decide (x ≠ p)) ∧
    (handleCrawlerUnable st (.page p st.que_id) .notFound).1.recent_failures =
      st.recent_failures := by
  simp [handleCrawlerUnable, crawlerUnableEscalate]

theorem cu_page_gen_frame (st : CrawlState) (p : Nat) :
    (handleCrawlerUnable st (.page p st.que_id) .generic).1.que.todo_pages =
      st.que.todo_pages ∧
    (handleCrawlerUnable st (.page p st.que_id) .generic).1.que.invalid_pages =
      st.que.invalid_pages ++ [p] ∧
    (handleCrawlerUnable st (.page p st.que_id) .generic).1.que.in_flight_pages =
      st.que.in_flight_pages.filter (fun x => decide (x ≠ p)) ∧
    (handleCrawlerUnable st (.page p st.que_id) .generic).1.recent_failures =
      st.recent_failures ++ [.page p st.que_id] := by
  simp [handleCrawlerUnable, crawlerUnableEscalate]

theorem cu_char_pages_frame (st : CrawlState) (a : String) (err : CrawlerError) :
    (handleCrawlerUnable st (.character a st.que_id) err).1.que.todo_pages =
      st.que.todo_pages ∧
    (handleCrawlerUnable st (.character a st.que_id) err).1.que.invalid_pages =
      st.que.invalid_pages ∧
    (handleCrawlerUnable st (.character a st.que_id) err).1.que.in_flight_pages =
      st.que.in_flight_pages ∧
    ((handleCrawlerUnable st (.character a st.que_id) err).1.recent_failures =
        st.recent_failures ∨
      (handleCrawlerUnable st (.character a st.que_id) err).1.recent_failures =
        st.recent_failures ++ [.character a st.que_id]) := by
  cases err with
  | notFound =>
    exact ⟨by simp [handleCrawlerUnable, crawlerUnableEscalate],
      by simp [handleCrawlerUnable, crawlerUnableEscalate],
      by simp [handleCrawlerUnable, crawlerUnableEscalate],
      Or.inl (by simp [handleCrawlerUnable, crawlerUnableEscalate])⟩
  | rateLimit =>
    exact ⟨by simp [handleCrawlerUnable, crawlerUnableEscalate],
      by simp [handleCrawlerUnable, crawlerUnableEscalate],
      by simp [handleCrawlerUnable, crawlerUnableEscalate],
      Or.inl (by simp [handleCrawlerUnable, crawlerUnableEscalate])⟩
  | generic =>
    exact ⟨by simp [handleCrawlerUnable, crawlerUnableEscalate],
      by simp [handleCrawlerUnable, crawlerUnableEscalate],
      by simp [handleCrawlerUnable, crawlerUnableEscalate],
      Or.inr (by simp [handleCrawlerUnable, crawlerUnableEscalate])⟩

theorem revived_frame (st : CrawlState) :
    (handleCrawlerRevived st).que.todo_pages =
      st.que.todo_pages ++ rfOkPages st ∧
    (handleCrawlerRevived st).que.invalid_pages =
      removeAll st.que.invalid_pages (rfOkPages st) ∧
    (handleCrawlerRevived st).que.in_flight_pages =
      st.que.in_flight_pages ∧
    (handleCrawlerRevived st).recent_failures = [] := by
  simp [handleCrawlerRevived]

theorem mem_removeAll [DecidableEq α] (l rem : List α) (x : α) :
    x ∈ removeAll l rem ↔ x ∈ l ∧ x ∉ rem := by
  simp [removeAll]

theorem rfP_of_rf_eq (st st2 : CrawlState)
    (h : st2.recent_failures = st.recent_failures) : rfP st2 = rfP st := by
  simp [rfP, h]

theorem rfP_of_rf_append_page (st st2 : CrawlState) (p qid : Nat)
    (h : st2.recent_failures = st.recent_failures ++ [.page p qid]) :
    rfP st2 = rfP st ++ [p] := by
  simp [rfP, h, List.filterMap_append]

theorem rfP_of_rf_append_char (st st2 : CrawlState) (a : String) (qid : Nat)
    (h : st2.recent_failures = st.recent_failures ++ [.character a qid]) :
    rfP st2 = rfP st := by
  simp [rfP, h, List.filterMap_append]

theorem rfP_of_rf_nil (st2 : CrawlState) (h : st2.recent_failures = []) :
    rfP st2 = [] := by
  simp [rfP, h]

theorem rfOk_sublist_aux (qid0 : Nat) (l : List CrawlAction) :
    List.Sublist
      (l.filterMap fun a =>
        match a with
        | .page p qid => if qid = qid0 then some p else none
        | _ => none)
      (l.filterMap fun a =>
        match a with
        | .page p _ => some p
        | _ => none) := by
  induction l with
  | nil => simp
  | cons a rest ih =>
    cases a with
    | wait => simpa [List.filterMap_cons] using ih
    | initTodo => simpa [List.filterMap_cons] using ih
    | character n qid => simpa [List.filterMap_cons] using ih
    | page p qid =>
      by_cases h : qid = qid0
      · simpa [List.filterMap_cons, h] using ih.cons₂ p
      · simpa [List.filterMap_cons, h] using ih.cons p

theorem rfOkPages_sublist (st : CrawlState) :
    List.Sublist (rfOkPages st) (rfP st) :=
  rfOk_sublist_aux st.que.que_id st.recent_failures

theorem mem_filter_ne [DecidableEq α] (l : List α) (p x : α) :
    x ∈ l.filter (fun y => decide (y ≠ p)) ↔ x ∈ l ∧ x ≠ p := by
  simp

theorem pageInv_step (s t : SysState) (hst : QStep s t) (h : PageInv s) :
    PageInv t := by
  cases hst with
  | popDigit l a hsplit hd =>
    exact ⟨h.todo_inflight, h.todo_invalid, h.inflight_invalid,
      h.out_inflight, h.todo_nodup, h.inflight_nodup, h.out_nodup,
      h.rf_invalid, h.rf_nodup⟩
  | popChar l a hsplit hd =>
    exact ⟨h.todo_inflight, h.todo_invalid, h.inflight_invalid,
      h.out_inflight, h.todo_nodup, h.inflight_nodup, h.out_nodup,
      h.rf_invalid, h.rf_nodup⟩
  | popPage l p hacc hsplit =>
    have hpmem : p ∈ s.cs.que.todo_pages := by
      rw [hsplit]
      exact List.mem_append_right _ (List.mem_singleton_self p)
    have hnd := h.todo_nodup
    rw [hsplit, List.nodup_append] at hnd
    obtain ⟨hlnd, _, hdisj⟩ := hnd
    have hpnl : p ∉ l := fun hx => hdisj hx (List.mem_singleton_self p)
    have hpnin : p ∉ s.cs.que.in_flight_pages := h.todo_inflight p hpmem
    have hpninv : p ∉ s.cs.que.invalid_pages := h.todo_invalid p hpmem
    refine ⟨?_, ?_, ?_, ?_, hlnd, ?_, ?_, h.rf_invalid, h.rf_nodup⟩
    · intro x hx hmem
      rcases List.mem_append.1 hmem with hm | hm
      · exact h.todo_inflight x
          (by rw [hsplit]; exact List.mem_append_left _ hx) hm
      · rw [List.mem_singleton] at hm
        subst hm
        exact hpnl hx
    · intro x hx
      exact h.todo_invalid x
        (by rw [hsplit]; exact List.mem_append_left _ hx)
    · intro x hx
      rcases List.mem_append.1 hx with hm | hm
      · exact h.inflight_invalid x hm
      · rw [List.mem_singleton] at hm
        subst hm
        exact hpninv
    · intro x hx
      rcases List.mem_append.1 hx with hm | hm
      · exact List.mem_append_left _ (h.out_inflight x hm)
      · exact List.mem_append_right _ hm
    · rw [List.nodup_append]
      refine ⟨h.inflight_nodup, List.nodup_singleton p, ?_⟩
      intro x hx hmem
      rw [List.mem_singleton] at hmem
      subst hmem
      exact hpnin hx
    · rw [List.nodup_append]
      refine ⟨h.out_nodup, List.nodup_singleton p, ?_⟩
      intro x hx hmem
      rw [List.mem_singleton] at hmem
      subst hmem
      exact hpnin (h.out_inflight x hx)
  | completePage p disc hp =>
    obtain ⟨htp, hiv, hif, _, _⟩ :=
      completePage_frame s.cs.que p s.cs.que.que_id disc
    refine ⟨?_, ?_, ?_, ?_, ?_, ?_, ?_, ?_, ?_⟩
    · intro x hx hmem
      rw [htp] at hx
      rw [hif, mem_filter_ne] at hmem
      exact h.todo_inflight x hx hmem.1
    · intro x hx
      rw [htp] at hx
      rw [hiv]
      exact h.todo_invalid x hx
    · intro x hx
      rw [hif, mem_filter_ne] at hx
      rw [hiv]
      exact h.inflight_invalid x hx.1
    · intro x hx
      have hxx := (h.out_nodup.mem_erase_iff).1 hx
      rw [hif, mem_filter_ne]
      exact ⟨h.out_inflight x hxx.2, hxx.1⟩
    · rw [htp]
      exact h.todo_nodup
    · rw [hif]
      exact h.inflight_nodup.filter _
    · show (s.outP.erase p).Nodup
      exact h.out_nodup.erase p
    · intro p2 hp2
      rw [hiv]
      exact h.rf_invalid p2 hp2
    · exact h.rf_nodup
  | completeChar ch ha =>
    obtain ⟨htp, hiv, hif, hrf⟩ := hcc_current_frame s.cs ch
    refine ⟨?_, ?_, ?_, ?_, ?_, ?_, ?_, ?_, ?_⟩
    · intro x hx
      rw [htp] at hx
      rw [hif]
      exact h.todo_inflight x hx
    · intro x hx
      rw [htp] at hx
      rw [hiv]
      exact h.todo_invalid x hx
    · intro x hx
      rw [hif] at hx
      rw [hiv]
      exact h.inflight_invalid x hx
    · intro x hx
      rw [hif]
      exact h.out_inflight x hx
    · rw [htp]
      exact h.todo_nodup
    · rw [hif]
      exact h.inflight_nodup
    · exact h.out_nodup
    · intro p2 hp2
      rw [rfP_of_rf_nil _ hrf] at hp2
      cases hp2
    · rw [rfP_of_rf_nil _ hrf]
      exact List.nodup_nil
  | charNF a ha =>
    obtain ⟨htp, hiv, hif⟩ :=
      charNotFound_frame s.cs.que a s.cs.que.que_id
    refine ⟨?_, ?_, ?_, ?_, ?_, ?_, ?_, ?_, ?_⟩
    · intro x hx
      rw [htp] at hx
      rw [hif]
      exact h.todo_inflight x hx
    · intro x hx
      rw [htp] at hx
      rw [hiv]
      exact h.todo_invalid x hx
    · intro x hx
      rw [hif] at hx
      rw [hiv]
      exact h.inflight_invalid x hx
    · intro x hx
      rw [hif]
      exact h.out_inflight x hx
    · rw [htp]
      exact h.todo_nodup
    · rw [hif]
      exact h.inflight_nodup
    · exact h.out_nodup
    · intro p2 hp2
      rw [hiv]
      exact h.rf_invalid p2 hp2
    · exact h.rf_nodup
  | failPage p err hp =>
    have hpin : p ∈ s.cs.que.in_flight_pages := h.out_inflight p hp
    have hpninv : p ∉ s.cs.que.invalid_pages := h.inflight_invalid p hpin
    have hpntodo : p ∉ s.cs.que.todo_pages :=
      fun hx => h.todo_inflight p hx hpin
    have hpnrf : p ∉ rfP s.cs := fun hx => hpninv (h.rf_invalid p hx)
    cases err with
    | rateLimit =>
      obtain ⟨htp, hiv, hif, hrf⟩ := cu_page_rl_frame s.cs p
      refine ⟨?_, ?_, ?_, ?_, ?_, ?_, ?_, ?_, ?_⟩
      · intro x hx hmem
        rw [htp] at hx
        rw [hif, mem_filter_ne] at hmem
        rcases List.mem_append.1 hx with hm | hm
        · exact h.todo_inflight x hm hmem.1
        · rw [List.mem_singleton] at hm
          exact hmem.2 hm
      · intro x hx
        rw [htp] at hx
        rw [hiv]
        rcases List.mem_append.1 hx with hm | hm
        · exact h.todo_invalid x hm
        · rw [List.mem_singleton] at hm
          subst hm
          exact hpninv
      · intro x hx
        rw [hif, mem_filter_ne] at hx
        rw [hiv]
        exact h.inflight_invalid x hx.1
      · intro x hx
        have hxx := (h.out_nodup.mem_erase_iff).1 hx
        rw [hif, mem_filter_ne]
        exact ⟨h.out_inflight x hxx.2, hxx.1⟩
      · rw [htp, List.nodup_append]
        refine ⟨h.todo_nodup, List.nodup_singleton p, ?_⟩
        intro x hx hmem
        rw [List.mem_singleton] at hmem
        subst hmem
        exact hpntodo hx
      · rw [hif]
        exact h.inflight_nodup.filter _
      · show (s.outP.erase p).Nodup
        exact h.out_nodup.erase p
      · intro p2 hp2
        rw [rfP_of_rf_eq s.cs _ hrf] at hp2
        rw [hiv]
        exact h.rf_invalid p2 hp2
      · rw [rfP_of_rf_eq s.cs _ hrf]
        exact h.rf_nodup
    | notFound =>
      obtain ⟨htp, hiv, hif, hrf⟩ := cu_page_nf_frame s.cs p
      refine ⟨?_, ?_, ?_, ?_, ?_, ?_, ?_, ?_, ?_⟩
      · intro x hx hmem
        rw [htp] at hx
        rw [hif, mem_filter_ne] at hmem
        exact h.todo_inflight x hx hmem.1
      · intro x hx hmem
        rw [htp] at hx
        rw [hiv] at hmem
        rcases List.mem_append.1 hmem with hm | hm
        · exact h.todo_invalid x hx hm
        · rw [List.mem_singleton] at hm
          subst hm
          exact hpntodo hx
      · intro x hx hmem
        rw [hif, mem_filter_ne] at hx
        rw [hiv] at hmem
        rcases List.mem_append.1 hmem with hm | hm
        · exact h.inflight_invalid x hx.1 hm
        · rw [List.mem_singleton] at hm
          exact hx.2 hm
      · intro x hx
        have hxx := (h.out_nodup.mem_erase_iff).1 hx
        rw [hif, mem_filter_ne]
        exact ⟨h.out_inflight x hxx.2, hxx.1⟩
      · rw [htp]
        exact h.todo_nodup
      · rw [hif]
        exact h.inflight_nodup.filter _
      · show (s.outP.erase p).Nodup
        exact h.out_nodup.erase p
      · intro p2 hp2
        rw [rfP_of_rf_eq s.cs _ hrf] at hp2
        rw [hiv]
        exact List.mem_append_left _ (h.rf_invalid p2 hp2)
      · rw [rfP_of_rf_eq s.cs _ hrf]
        exact h.rf_nodup
    | generic =>
      obtain ⟨htp, hiv, hif, hrf⟩ := cu_page_gen_frame s.cs p
      refine ⟨?_, ?_, ?_, ?_, ?_, ?_, ?_, ?_, ?_⟩
      · intro x hx hmem
        rw [htp] at hx
        rw [hif, mem_filter_ne] at hmem
        exact h.todo_inflight x hx hmem.1
      · intro x hx hmem
        rw [htp] at hx
        rw [hiv] at hmem
        rcases List.mem_append.1 hmem with hm | hm
        · exact h.todo_invalid x hx hm
        · rw [List.mem_singleton] at hm
          subst hm
          exact hpntodo hx
      · intro x hx hmem
        rw [hif, mem_filter_ne] at hx
        rw [hiv] at hmem
        rcases List.mem_append.1 hmem with hm | hm
        · exact h.inflight_invalid x hx.1 hm
        · rw [List.mem_singleton] at hm
          exact hx.2 hm
      · intro x hx
        have hxx := (h.out_nodup.mem_erase_iff).1 hx
        rw [hif, mem_filter_ne]
        exact ⟨h.out_inflight x hxx.2, hxx.1⟩
      · rw [htp]
        exact h.todo_nodup
      · rw [hif]
        exact h.inflight_nodup.filter _
      · show (s.outP.erase p).Nodup
        exact h.out_nodup.erase p
      · intro p2 hp2
        rw [rfP_of_rf_append_page s.cs _ p s.cs.que_id hrf] at hp2
        rw [hiv]
        rcases List.mem_append.1 hp2 with hm | hm
        · exact List.mem_append_left _ (h.rf_invalid p2 hm)
        · rw [List.mem_singleton] at hm
          rw [hm]
          exact List.mem_append_right _ (List.mem_singleton_self p)
      · rw [rfP_of_rf_append_page s.cs _ p s.cs.que_id hrf,
          List.nodup_append]
        refine ⟨h.rf_nodup, List.nodup_singleton p, ?_⟩
        intro x hx hmem
        rw [List.mem_singleton] at hmem
        subst hmem
        exact hpnrf hx
  | failChar a err ha =>
    obtain ⟨htp, hiv, hif, hrf⟩ := cu_char_pages_frame s.cs a err
    have hrfp : rfP (handleCrawlerUnable s.cs (.character a s.cs.que_id) err).1 =
        rfP s.cs := by
      rcases hrf with hrf | hrf
      · exact rfP_of_rf_eq s.cs _ hrf
      · exact rfP_of_rf_append_char s.cs _ a s.cs.que_id hrf
    refine ⟨?_, ?_, ?_, ?_, ?_, ?_, ?_, ?_, ?_⟩
    · intro x hx
      rw [htp] at hx
      rw [hif]
      exact h.todo_inflight x hx
    · intro x hx
      rw [htp] at hx
      rw [hiv]
      exact h.todo_invalid x hx
    · intro x hx
      rw [hif] at hx
      rw [hiv]
      exact h.inflight_invalid x hx
    · intro x hx
      rw [hif]
      exact h.out_inflight x hx
    · rw [htp]
      exact h.todo_nodup
    · rw [hif]
      exact h.inflight_nodup
    · exact h.out_nodup
    · intro p2 hp2
      rw [hrfp] at hp2
      rw [hiv]
      exact h.rf_invalid p2 hp2
    · rw [hrfp]
      exact h.rf_nodup
  | revive =>
    obtain ⟨htp, hiv, hif, hrf⟩ := revived_frame s.cs
    have hsub := (rfOkPages_sublist s.cs).subset
    have hoknd : (rfOkPages s.cs).Nodup :=
      List.Nodup.sublist (rfOkPages_sublist s.cs) h.rf_nodup
    have hokinv : ∀ x ∈ rfOkPages s.cs, x ∈ s.cs.que.invalid_pages :=
      fun x hx => h.rf_invalid x (hsub hx)
    refine ⟨?_, ?_, ?_, ?_, ?_, ?_, ?_, ?_, ?_⟩
    · intro x hx hmem
      rw [htp] at hx
      rw [hif] at hmem
      rcases List.mem_append.1 hx with hm | hm
      · exact h.todo_inflight x hm hmem
      · exact h.inflight_invalid x hmem (hokinv x hm)
    · intro x hx
      rw [htp] at hx
      rw [hiv, mem_removeAll]
      rcases List.mem_append.1 hx with hm | hm
      · intro hc
        exact h.todo_invalid x hm hc.1
      · intro hc
        exact hc.2 hm
    · intro x hx
      rw [hif] at hx
      rw [hiv, mem_removeAll]
      intro hc
      exact h.inflight_invalid x hx hc.1
    · intro x hx
      rw [hif]
      exact h.out_inflight x hx
    · rw [htp, List.nodup_append]
      refine ⟨h.todo_nodup, hoknd, ?_⟩
      intro x hx hmem
      exact h.todo_invalid x hx (hokinv x hmem)
    · rw [hif]
      exact h.inflight_nodup
    · exact h.out_nodup
    · intro p2 hp2
      rw [rfP_of_rf_nil _ hrf] at hp2
      cases hp2
    · rw [rfP_of_rf_nil _ hrf]
      exact List.nodup_nil

theorem pageInv_init (s : SysState) (h : InitState s) : PageInv s := by
  obtain ⟨h1, h2, h3, h4, h5, h6, h7⟩ := h
  refine ⟨?_, h7, ?_, ?_, h6, ?_, ?_, ?_, ?_⟩
  · intro x hx hc
    rw [h1] at hc
    cases hc
  · intro x hx
    rw [h1] at hx
    cases hx
  · intro x hx
    rw [h4] at hx
    cases hx
  · rw [h1]
    exact List.nodup_nil
  · rw [h4]
    exact List.nodup_nil
  · intro p hp
    rw [rfP_of_rf_nil _ h3] at hp
    cases hp
  · rw [rfP_of_rf_nil _ h3]
    exact List.nodup_nil

theorem pageInv_reach (s : SysState) (h : ReachQ s) : PageInv s := by
  induction h with
  | init s2 h2 => exact pageInv_init s2 h2
  | step s2 t2 h2 hs ih => exact pageInv_step s2 t2 hs ih

/-- C3, counterexample.  The ACCOUNT partitions are not pairwise disjoint in
every reachable state: starting from a fresh queue with todo pages [0, 1],
completing page 1 discovers the digit-only name "123" (pushed to todo
unconditionally), the next pop classifies it invalid, and completing page 0
— which lists the same name again — pushes it to todo once more, with no
membership check against the invalid or in-flight partitions.  The state
with "123" in both todo and invalid accounts is reachable by the claim's
own operations. -/
theorem c3_counterexample :
    ReachQ c3sBad ∧ "123" ∈ c3sBad.cs.que.todo_accounts ∧
    "123" ∈ c3sBad.cs.que.invalid_accounts := by
  have h0 : ReachQ c3s0 := .init c3s0 (by unfold InitState; decide)
  have h1 : ReachQ c3s1 :=
    .step c3s0 c3s1 h0 (QStep.popPage c3s0 [0] 1 (by decide) (by decide))
  have h2 : ReachQ c3s2 :=
    .step c3s1 c3s2 h1 (QStep.completePage c3s1 1 [(5, "123")] (by decide))
  have h3 : ReachQ c3s3 :=
    .step c3s2 c3s3 h2 (QStep.popDigit c3s2 [] "123" (by decide) (by decide))
  have h4 : ReachQ c3s4 :=
    .step c3s3 c3s4 h3 (QStep.popPage c3s3 [] 0 (by decide) (by decide))
  have h5 : ReachQ c3sBad :=
    .step c3s4 c3sBad h4 (QStep.completePage c3s4 0 [(5, "123")] (by decide))
  exact ⟨h5, by decide, by decide⟩

/-- C3, amended.  In every state reachable from an initial state (fresh or
restored: nothing in flight, no recorded failures, duplicate-free todo
pages disjoint from invalid pages) by the queue operations — next_action
pops, page/account completion, failure reporting, revival replay — the PAGE
partitions todo, in-flight and invalid are pairwise disjoint.  The account
partitions are not (see the counterexample): page completion pushes
discovered names into todo without checking the other partitions. -/
theorem c3_amended_page_disjoint (s : SysState) (h : ReachQ s) :
    (∀ x ∈ s.cs.que.todo_pages, x ∉ s.cs.que.in_flight_pages) ∧
    (∀ x ∈ s.cs.que.todo_pages, x ∉ s.cs.que.invalid_pages) ∧
    (∀ x ∈ s.cs.que.in_flight_pages, x ∉ s.cs.que.invalid_pages) :=
  ⟨(pageInv_reach s h).todo_inflight, (pageInv_reach s h).todo_invalid,
    (pageInv_reach s h).inflight_invalid⟩

/-- C3, witness: the concrete initial two-page state is reachable, and the
amended theorem yields the disjointness of its page partitions. -/
theorem c3_witness :
    (∀ x ∈ c3s0.cs.que.todo_pages, x ∉ c3s0.cs.que.in_flight_pages) ∧
    (∀ x ∈ c3s0.cs.que.todo_pages, x ∉ c3s0.cs.que.invalid_pages) ∧
    (∀ x ∈ c3s0.cs.que.in_flight_pages, x ∉ c3s0.cs.que.invalid_pages) :=
  c3_amended_page_disjoint c3s0 (.init c3s0 (by unfold InitState; decide))

end SBH
